import Mathlib

/-!
Verification of the olx_crawler harvest pipeline (`empty_query.py`).

The embedding below mirrors the three functions of the source file —
`search_olx_data`, `create_engine_with_retry` and `insert_to_db` — as pure
Lean functions.  External effects are made explicit:

* the remote API is an oracle `pages : Nat → Response`, giving for every page
  number either a transport/HTTP failure (`Response.fail`, the
  `requests.exceptions.RequestException` family, which covers both transport
  errors and the non-2xx `raise_for_status` path) or a parsed `data` array of
  raw listings;
* the database is a pair of oracles `connOk : Nat → Bool` (does the i-th
  connection attempt succeed?) and `writeOk : Nat → Bool` (does the i-th
  `to_sql` chunk append succeed?);
* wall-clock time (`datetime.now()`) is an injected timestamp `tnow`;
  `time.sleep` calls are pure pacing and are not modelled, except that the
  retry loop's delay count is reported by `create_engine_with_retry`.

Python exceptions become `Except` results; an uncaught Python `KeyError e`
is `Except.error (PyError.keyError e)`.
-/

namespace Olx

/-- A JSON value as returned by the remote API; string escaping is elided
(the serializer is only required to be a fixed injective-enough rendering,
matching `json.dumps` on the shapes the claims exercise: `json.dumps(None)`,
`json.dumps(False)`, `json.dumps({})`, numbers and strings). -/
inductive JVal where
  | null : JVal
  | boolv (b : Bool) : JVal
  | numv (n : Int) : JVal
  | strv (s : String) : JVal
  | arrv (xs : List JVal) : JVal
  | obj (fields : List (String × JVal)) : JVal

mutual

/-- Serialization of a `JVal`, mirroring `json.dumps` with default options
(ASCII separators `", "` and `": "`, no string escaping). -/
def dumps : JVal → String
  | .null => "null"
  | .boolv b => if b then "true" else "false"
  | .numv n => toString n
  | .strv s => "\"" ++ s ++ "\""
  | .arrv xs => "[" ++ dumpsElems xs ++ "]"
  | .obj fs => "\x7b" ++ dumpsFields fs ++ "\x7d"

/-- Serialize the comma-separated elements of a JSON array. -/
def dumpsElems : List JVal → String
  | [] => ""
  | [x] => dumps x
  | x :: y :: rest => dumps x ++ ", " ++ dumpsElems (y :: rest)

/-- Serialize the comma-separated members of a JSON object. -/
def dumpsFields : List (String × JVal) → String
  | [] => ""
  | [kv] => "\"" ++ kv.1 ++ "\": " ++ dumps kv.2
  | kv :: kw :: rest => "\"" ++ kv.1 ++ "\": " ++ dumps kv.2 ++ ", " ++ dumpsFields (kw :: rest)

end

/-- One raw listing of a page's `data` array.  Only the fields the source
reads are modelled; a field that may be absent from the JSON object is an
`Option` (`none` = key absent, so `ads_data[k]` raises `KeyError` and
`ads_data.get(k, d)` yields `d`). -/
structure RawListing where
  id : Option JVal := none
  title : Option JVal := none
  price : Option JVal := none
  description : Option JVal := none
  created_at : Option JVal := none
  locations_resolved : Option JVal := none
  main_info : Option JVal := none
  artificial_boost : Option JVal := none
  created_at_first : Option JVal := none
  locations : Option JVal := none
  has_promotion : Option JVal := none
  category_id : Option JVal := none
  user_id : Option JVal := none
  favorites : Option JVal := none
  user_type : Option JVal := none

/-- Capture timestamps, abstract (`datetime.now()` values). -/
abbrev Timestamp := Nat

/-- The `useful_data` dict built per listing: the NormalizedRecord.
Field order follows the source's dict-literal order. -/
structure Record where
  id : JVal
  title : JVal
  price : String
  description : String
  created_at : String
  locations_resolved : String
  main_info : String
  artificial_boost : String
  created_at_first : String
  locations : String
  location_search : Nat
  page : Nat
  inserted_at : Timestamp
  has_promotion : String
  category_id : String
  user_id : String
  favorites : String
  user_type : String

/-- An uncaught Python exception relevant to this program: `KeyError k`
raised by a direct dict subscript on a missing key `k`. -/
inductive PyError where
  | keyError (key : String) : PyError
deriving DecidableEq

/-- Normalization of one raw listing (the `useful_data` dict construction,
`empty_query.py` lines 88–107).  Python evaluates the dict entries in source
order, so the first missing directly-subscripted key (`id`, `title`,
`price`, `description`, `created_at`, in that order) raises `KeyError`;
every other source field is read with `.get` and a per-field default. -/
def normalizeListing (location : Nat) (tnow : Timestamp) (pageNum : Nat)
    (ads : RawListing) : Except PyError Record :=
  match ads.id with
  | none => .error (.keyError "id")
  | some idv =>
  match ads.title with
  | none => .error (.keyError "title")
  | some titlev =>
  match ads.price with
  | none => .error (.keyError "price")
  | some pricev =>
  match ads.description with
  | none => .error (.keyError "description")
  | some descv =>
  match ads.created_at with
  | none => .error (.keyError "created_at")
  | some creatv =>
    .ok
      { id := idv
        title := titlev
        price := dumps pricev
        description := dumps descv
        created_at := dumps creatv
        locations_resolved := dumps (ads.locations_resolved.getD (.obj []))
        main_info := dumps (ads.main_info.getD (.obj []))
        artificial_boost := dumps (ads.artificial_boost.getD .null)
        created_at_first := dumps (ads.created_at_first.getD .null)
        locations := dumps (ads.locations.getD (.obj []))
        location_search := location
        page := pageNum
        inserted_at := tnow
        has_promotion := dumps (ads.has_promotion.getD (.boolv false))
        category_id := dumps (ads.category_id.getD .null)
        user_id := dumps (ads.user_id.getD .null)
        favorites := dumps (ads.favorites.getD .null)
        user_type := dumps (ads.user_type.getD .null)
      }

/-- The `for ads_data in ads_data_arr` loop body over one page: normalize
each listing in order; the first `KeyError` propagates (the surrounding
`except` clause catches only `requests.exceptions.RequestException`). -/
def normalizePage (location : Nat) (tnow : Timestamp) (pageNum : Nat) :
    List RawListing → Except PyError (List Record)
  | [] => .ok []
  | a :: rest =>
    match normalizeListing location tnow pageNum a with
    | .error e => .error e
    | .ok r =>
      match normalizePage location tnow pageNum rest with
      | .error e => .error e
      | .ok rs => .ok (r :: rs)

/-- The outcome of one `requests.get` for a page: either a
`RequestException` (transport error, or non-2xx status via
`raise_for_status`) or the parsed `data` array of the JSON body. -/
inductive Response where
  | fail : Response
  | ok (arr : List RawListing) : Response

/-- The query parameters of one page request (`params` dict,
`empty_query.py` lines 62–69; `params['page'] = page_num` is added only
once `page_num > 0`). -/
structure Request where
  facet_limit : Nat
  location : Nat
  location_facet_limit : Nat
  platform : String
  relaxedFilters : Bool
  spellcheck : Bool
  page : Option Nat
deriving DecidableEq

/-- The request issued for page `pageNum` of a location's search. -/
def mkRequest (location : Nat) (pageNum : Nat) : Request :=
  { facet_limit := 100
    location := location
    location_facet_limit := 20
    platform := "web-desktop"
    relaxedFilters := true
    spellcheck := true
    page := if pageNum > 0 then some pageNum else none }

/-- What one call of `search_olx_data` did: the page requests it issued (in
order), and either the returned `ads_data_list` or the uncaught exception
that escaped it. -/
structure FetchResult where
  requests : List Request
  result : Except PyError (List Record)

/-- The `while page_num < max_pages` loop of `search_olx_data`, with
`fuel = max_pages - page_num` as the structural measure.  Each iteration
issues one request; a `RequestException` is caught and breaks the loop, an
empty `data` array breaks the loop, a `KeyError` from normalization escapes
(it is not a `RequestException`), otherwise the page's records are appended
and the loop continues. -/
def searchLoop (pages : Nat → Response) (location : Nat) (tnow : Timestamp) :
    Nat → Nat → List Request → List Record → FetchResult
  | _, 0, reqs, acc => ⟨reqs, .ok acc⟩
  | pageNum, fuel + 1, reqs, acc =>
    let req := mkRequest location pageNum
    match pages pageNum with
    | .fail => ⟨reqs ++ [req], .ok acc⟩
    | .ok [] => ⟨reqs ++ [req], .ok acc⟩
    | .ok (a :: rest) =>
      match normalizePage location tnow pageNum (a :: rest) with
      | .error e => ⟨reqs ++ [req], .error e⟩
      | .ok newRecs =>
        searchLoop pages location tnow (pageNum + 1) fuel (reqs ++ [req]) (acc ++ newRecs)

/-- `search_olx_data(location, max_pages)` (`empty_query.py` lines 59–117). -/
def search_olx_data (pages : Nat → Response) (location : Nat) (tnow : Timestamp)
    (max_pages : Nat) : FetchResult :=
  searchLoop pages location tnow 0 max_pages [] []

/-- `RETRY_LIMIT` as configured in the source (line 51). -/
def RETRY_LIMIT : Nat := 10

/-- `RETRY_DELAY` in seconds as configured in the source (line 52). -/
def RETRY_DELAY : Nat := 2

/-- A database-layer failure: the `sqlalchemy.exc.SQLAlchemyError` re-raised
when connection retries are exhausted (the spec's `StorageUnavailable`). -/
inductive StorageError where
  | storageUnavailable : StorageError
deriving DecidableEq

/-- What one call of `create_engine_with_retry` did: how many connection
attempts it made, how many `time.sleep(RETRY_DELAY)` pauses it took, and its
outcome — `.ok (some ())` a verified engine, `.ok none` the implicit `None`
returned when the `for attempt in range(RETRY_LIMIT)` loop body never runs,
`.error` the re-raised `SQLAlchemyError`. -/
structure ConnResult where
  attempts : Nat
  delays : Nat
  outcome : Except StorageError (Option Unit)

/-- The `for attempt in range(limit)` loop of `create_engine_with_retry`,
with `fuel = limit - attempt` remaining iterations.  A successful attempt
returns the engine at once; a failed attempt sleeps and continues when
`attempt < limit - 1` (i.e. `fuel ≥ 2`) and re-raises on the last attempt. -/
def connLoop (connOk : Nat → Bool) : Nat → Nat → ConnResult
  | _, 0 => ⟨0, 0, .ok none⟩
  | attempt, 1 =>
    if connOk attempt then ⟨1, 0, .ok (some ())⟩
    else ⟨1, 0, .error .storageUnavailable⟩
  | attempt, fuel + 2 =>
    if connOk attempt then ⟨1, 0, .ok (some ())⟩
    else
      let r := connLoop connOk (attempt + 1) (fuel + 1)
      ⟨r.attempts + 1, r.delays + 1, r.outcome⟩

/-- `create_engine_with_retry()` (`empty_query.py` lines 119–140), with the
retry limit as the injected configuration value the spec's §6 describes
(the source fixes it to `RETRY_LIMIT = 10`). -/
def create_engine_with_retry (connOk : Nat → Bool) (limit : Nat) : ConnResult :=
  connLoop connOk 0 limit

/-- Python's `range(start, stop, step)` for a positive step, as the loop
`while start < stop: yield start; start += step`.  The fuel `stop - start`
bounds the iteration count since each iteration advances `start` by
`step ≥ 1`. -/
def rangeStepGo (step : Nat) : Nat → Nat → Nat → List Nat
  | _, _, 0 => []
  | start, stop, fuel + 1 =>
    if start < stop then start :: rangeStepGo step (start + step) stop fuel
    else []

/-- Python's `range(start, stop, step)`.  A zero step raises `ValueError`
in Python; the only caller (`insert_to_db`) handles that case before
reaching this point, so here it yields nothing. -/
def rangeStep (start stop step : Nat) : List Nat :=
  if step = 0 then [] else rangeStepGo step start stop (stop - start)

/-- The chunk partition walked by `for start in range(0, len(df), chunk_size)`
with slices `df.iloc[start:start + chunk_size]` (`empty_query.py` lines
155–157). -/
def chunksOf (chunkSize : Nat) (l : List α) : List (List α) :=
  (rangeStep 0 l.length chunkSize).map (fun start => (l.drop start).take chunkSize)

/-- One structured log event of the storage path. -/
inductive LogEvent where
  | noData : LogEvent
  | chunkInserted (count : Nat) (batch : Nat) : LogEvent
  | sqlError : LogEvent
  | unexpectedError : LogEvent
deriving DecidableEq

/-- The chunk-insert loop of `insert_to_db`: each `to_sql` call is recorded
together with the engine it was handed; a failing call (decided by the
`writeOk` oracle) raises, which the surrounding `except` catches — the
failed call was still issued, remaining chunks are abandoned, and the error
is logged. `i` is the zero-based chunk index (`start // chunk_size`). -/
def writeChunks (eng : Option Unit) (writeOk : Nat → Bool) :
    Nat → List (List Record) → List (Option Unit × List Record) × List LogEvent
  | _, [] => ([], [])
  | i, c :: rest =>
    if writeOk i then
      let r := writeChunks eng writeOk (i + 1) rest
      ((eng, c) :: r.1, .chunkInserted c.length (i + 1) :: r.2)
    else ([(eng, c)], [.sqlError])

/-- What one call of `insert_to_db` did: connection attempts made, `to_sql`
calls issued (with the engine each was handed and the records it carried),
log events, and the outcome — `.error` is an exception escaping
`insert_to_db` (only the fetch stage sits outside its `try`). -/
structure InsertResult where
  connAttempts : Nat
  appendCalls : List (Option Unit × List Record)
  logs : List LogEvent
  outcome : Except PyError Unit

/-- The body of `insert_to_db` after the fetch (`empty_query.py` lines
146–166): skip storage entirely on an empty list, otherwise acquire the
engine (a raised `StorageUnavailable` is caught by
`except exc.SQLAlchemyError` and logged) and write the chunks (a failing
chunk's exception is caught and logged; `chunk_size = 0` makes `range`
raise `ValueError`, caught by `except Exception`). -/
def insertCore (fetched : Except PyError (List Record)) (connOk writeOk : Nat → Bool)
    (retryLimit chunkSize : Nat) : InsertResult :=
  match fetched with
  | .error e => ⟨0, [], [], .error e⟩
  | .ok [] => ⟨0, [], [.noData], .ok ()⟩
  | .ok (r :: rs) =>
    let cr := create_engine_with_retry connOk retryLimit
    match cr.outcome with
    | .error _ => ⟨cr.attempts, [], [.sqlError], .ok ()⟩
    | .ok eng =>
      if chunkSize = 0 then ⟨cr.attempts, [], [.unexpectedError], .ok ()⟩
      else
        let wr := writeChunks eng writeOk 0 (chunksOf chunkSize (r :: rs))
        ⟨cr.attempts, wr.1, wr.2, .ok ()⟩

/-- `insert_to_db(location_id, chunk_size)` (`empty_query.py` lines
142–166).  The call `search_olx_data(location_id, max_pages=15)` sits
outside the `try`, so an exception it raises escapes `insert_to_db`;
`retryLimit`, `chunkSize` and `maxPages` are the injected configuration
values of spec §6 (the source uses 10, 1000 and 15). -/
def insert_to_db (pages : Nat → Response) (connOk writeOk : Nat → Bool)
    (location : Nat) (tnow : Timestamp) (retryLimit chunkSize maxPages : Nat) :
    InsertResult :=
  insertCore (search_olx_data pages location tnow maxPages).result
    connOk writeOk retryLimit chunkSize

/-! ### Lemmas about the connection retry loop -/

theorem connLoop_persistent (connOk : Nat → Bool) (h : ∀ i, connOk i = false) :
    ∀ fuel, 1 ≤ fuel → ∀ attempt,
      connLoop connOk attempt fuel = ⟨fuel, fuel - 1, .error .storageUnavailable⟩ := by
  intro fuel
  induction fuel with
  | zero => omega
  | succ n ih =>
    intro _ attempt
    match n with
    | 0 => simp [connLoop, h attempt]
    | m + 1 =>
      have hrec := ih (by omega) (attempt + 1)
      simp [connLoop, h attempt, hrec]

theorem connLoop_success (connOk : Nat → Bool) :
    ∀ d fuel attempt, d < fuel → (∀ j, j < d → connOk (attempt + j) = false) →
      connOk (attempt + d) = true →
      connLoop connOk attempt fuel = ⟨d + 1, d, .ok (some ())⟩ := by
  intro d
  induction d with
  | zero =>
    intro fuel attempt hd _ hs
    simp only [Nat.add_zero] at hs
    match fuel, hd with
    | 1, _ => simp [connLoop, hs]
    | m + 2, _ => simp [connLoop, hs]
  | succ d ih =>
    intro fuel attempt hd hfail hs
    match fuel, hd with
    | m + 2, _ =>
      have h0 : connOk attempt = false := by
        have := hfail 0 (by omega)
        simpa using this
      have hrec : connLoop connOk (attempt + 1) (m + 1) = ⟨d + 1, d, .ok (some ())⟩ := by
        refine ih (m + 1) (attempt + 1) (by omega) ?_ ?_
        · intro j hj
          have := hfail (j + 1) (by omega)
          simpa [Nat.add_assoc, Nat.add_comm 1 j] using this
        · simpa [Nat.add_assoc, Nat.add_comm 1 d] using hs
      simp [connLoop, h0, hrec]

theorem connLoop_outcome_ne_none (connOk : Nat → Bool) :
    ∀ fuel, 1 ≤ fuel → ∀ attempt, (connLoop connOk attempt fuel).outcome ≠ .ok none := by
  intro fuel
  induction fuel with
  | zero => omega
  | succ n ih =>
    intro _ attempt
    match n with
    | 0 =>
      by_cases h : connOk attempt <;> simp [connLoop, h]
    | m + 1 =>
      by_cases h : connOk attempt
      · simp [connLoop, h]
      · have hrec := ih (by omega) (attempt + 1)
        simpa [connLoop, h] using hrec

/-! ### Lemmas about `rangeStep` and the chunk partition -/

theorem rangeStepGo_join (l : List α) (C : Nat) (hC : 1 ≤ C) :
    ∀ fuel start, l.length - start ≤ fuel →
      ((rangeStepGo C start l.length fuel).map
          (fun s => (l.drop s).take C)).flatten = l.drop start := by
  intro fuel
  induction fuel with
  | zero =>
    intro start h
    have : l.length ≤ start := by omega
    simp [rangeStepGo, List.drop_eq_nil_of_le this]
  | succ n ih =>
    intro start h
    by_cases hs : start < l.length
    · have hrec := ih (start + C) (by omega)
      simp only [rangeStepGo, if_pos hs, List.map_cons, List.flatten_cons, hrec]
      rw [← List.drop_drop, List.take_append_drop]
    · have : l.length ≤ start := by omega
      simp [rangeStepGo, hs, List.drop_eq_nil_of_le this]

theorem rangeStepGo_length (C : Nat) (hC : 1 ≤ C) :
    ∀ fuel start stop, stop - start ≤ fuel →
      (rangeStepGo C start stop fuel).length = (stop - start + C - 1) / C := by
  intro fuel
  induction fuel with
  | zero =>
    intro start stop h
    have hd : stop - start = 0 := by omega
    rw [rangeStepGo, hd]
    rw [(Nat.div_eq_of_lt (by omega : 0 + C - 1 < C))]
    rfl
  | succ n ih =>
    intro start stop h
    by_cases hs : start < stop
    · have hrec := ih (start + C) stop (by omega)
      simp only [rangeStepGo, if_pos hs, List.length_cons, hrec]
      by_cases hbig : start + C < stop
      · have h1 : stop - (start + C) + C - 1 = stop - start - 1 := by omega
        have h2 : stop - start + C - 1 = (stop - start - 1) + C := by omega
        rw [h1, h2, Nat.add_div_right _ (by omega)]
      · have h1 : stop - (start + C) + C - 1 = 0 + C - 1 := by omega
        rw [h1, Nat.div_eq_of_lt (by omega : 0 + C - 1 < C),
          Nat.div_eq_sub_div (by omega) (by omega : C ≤ stop - start + C - 1)]
        have h2 : stop - start + C - 1 - C = stop - start - 1 := by omega
        rw [h2, Nat.div_eq_of_lt (by omega : stop - start - 1 < C)]
    · have hd : stop - start = 0 := by omega
      rw [rangeStepGo, if_neg hs]
      rw [hd, (Nat.div_eq_of_lt (by omega : 0 + C - 1 < C))]
      rfl

theorem rangeStepGo_eq_map (step : Nat) :
    ∀ fuel start stop,
      rangeStepGo step start stop fuel =
        (List.range (rangeStepGo step start stop fuel).length).map
          (fun i => start + i * step) := by
  intro fuel
  induction fuel with
  | zero => intro start stop; simp [rangeStepGo]
  | succ n ih =>
    intro start stop
    by_cases hs : start < stop
    · simp only [rangeStepGo, if_pos hs, List.length_cons]
      rw [List.range_succ_eq_map, List.map_cons, List.map_map]
      have hf : ((fun i => start + i * step) ∘ Nat.succ) =
          (fun i => start + step + i * step) := by
        funext i
        simp [Function.comp, Nat.succ_mul, Nat.succ_eq_add_one]
        ring
      rw [hf]
      simp only [Nat.zero_mul, Nat.add_zero]
      exact congrArg _ (ih (start + step) stop)
    · simp [rangeStepGo, hs]

theorem rangeStepGo_mem_lt (step : Nat) :
    ∀ fuel start stop, ∀ x ∈ rangeStepGo step start stop fuel, x < stop := by
  intro fuel
  induction fuel with
  | zero => intro start stop x hx; simp [rangeStepGo] at hx
  | succ n ih =>
    intro start stop x hx
    by_cases hs : start < stop
    · simp only [rangeStepGo, if_pos hs, List.mem_cons] at hx
      rcases hx with rfl | hx
      · exact hs
      · exact ih (start + step) stop x hx
    · simp [rangeStepGo, hs] at hx

theorem rangeStepGo_end (step : Nat) (hstep : 1 ≤ step) :
    ∀ fuel start stop, stop - start ≤ fuel →
      stop ≤ start + (rangeStepGo step start stop fuel).length * step := by
  intro fuel
  induction fuel with
  | zero => intro start stop h; simp [rangeStepGo]; omega
  | succ n ih =>
    intro start stop h
    by_cases hs : start < stop
    · have hrec := ih (start + step) stop (by omega)
      simp only [rangeStepGo, if_pos hs, List.length_cons]
      have : (rangeStepGo step (start + step) stop n).length * step + step =
          ((rangeStepGo step (start + step) stop n).length + 1) * step := by ring
      omega
    · simp only [rangeStepGo, if_neg hs, List.length_nil]
      omega

theorem chunksOf_flatten (C : Nat) (hC : 1 ≤ C) (l : List α) :
    (chunksOf C l).flatten = l := by
  have h := rangeStepGo_join l C hC l.length 0 (by omega)
  unfold chunksOf rangeStep
  rw [if_neg (by omega : ¬ C = 0)]
  simpa using h

theorem chunksOf_length (C : Nat) (hC : 1 ≤ C) (l : List α) :
    (chunksOf C l).length = (l.length + C - 1) / C := by
  have h := rangeStepGo_length C hC l.length 0 l.length (by omega)
  unfold chunksOf rangeStep
  rw [if_neg (by omega : ¬ C = 0), List.length_map]
  simpa using h

theorem chunksOf_getElem (C : Nat) (hC : 1 ≤ C) (l : List α) (i : Nat)
    (h : i < (chunksOf C l).length) :
    (chunksOf C l)[i] = (l.drop (i * C)).take C := by
  have hCne : ¬ C = 0 := by omega
  have hchunks : chunksOf C l =
      (rangeStepGo C 0 l.length (l.length - 0)).map (fun s => (l.drop s).take C) := by
    simp [chunksOf, rangeStep, hCne]
  have hig : i < (rangeStepGo C 0 l.length (l.length - 0)).length := by
    have := h
    rwa [hchunks, List.length_map] at this
  have h1 : (chunksOf C l)[i]? = some ((l.drop (i * C)).take C) := by
    rw [hchunks, List.getElem?_map, rangeStepGo_eq_map, List.getElem?_map,
      List.getElem?_range hig]
    simp
  rw [List.getElem?_eq_getElem h] at h1
  exact Option.some_injective _ h1

theorem chunksOf_getElem_mul_lt (C : Nat) (hC : 1 ≤ C) (l : List α) (i : Nat)
    (h : i < (chunksOf C l).length) : i * C < l.length := by
  have hCne : ¬ C = 0 := by omega
  have hchunks : chunksOf C l =
      (rangeStepGo C 0 l.length (l.length - 0)).map (fun s => (l.drop s).take C) := by
    simp [chunksOf, rangeStep, hCne]
  have hig : i < (rangeStepGo C 0 l.length (l.length - 0)).length := by
    have := h
    rwa [hchunks, List.length_map] at this
  have hmem := List.getElem_mem hig
  have hlt := rangeStepGo_mem_lt C (l.length - 0) 0 l.length _ hmem
  have hval : (rangeStepGo C 0 l.length (l.length - 0))[i]? = some (i * C) := by
    rw [rangeStepGo_eq_map, List.getElem?_map, List.getElem?_range hig]
    simp
  rw [List.getElem?_eq_getElem hig] at hval
  have := Option.some_injective _ hval
  rwa [this] at hlt

theorem chunksOf_total_bound (C : Nat) (hC : 1 ≤ C) (l : List α) :
    l.length ≤ (chunksOf C l).length * C := by
  have hCne : ¬ C = 0 := by omega
  have hchunks : (chunksOf C l).length =
      (rangeStepGo C 0 l.length (l.length - 0)).length := by
    simp [chunksOf, rangeStep, hCne]
  have h := rangeStepGo_end C hC (l.length - 0) 0 l.length (by omega)
  rw [hchunks]
  omega

theorem chunksOf_getElem_length (C : Nat) (hC : 1 ≤ C) (l : List α) (i : Nat)
    (h : i < (chunksOf C l).length) :
    (chunksOf C l)[i].length =
      if i + 1 < (chunksOf C l).length then C
      else if l.length % C = 0 then C else l.length % C := by
  rw [chunksOf_getElem C hC l i h, List.length_take, List.length_drop]
  by_cases hmid : i + 1 < (chunksOf C l).length
  · have hlt := chunksOf_getElem_mul_lt C hC l (i + 1) hmid
    rw [if_pos hmid]
    have : (i + 1) * C = i * C + C := by ring
    omega
  · rw [if_neg hmid]
    have hlt := chunksOf_getElem_mul_lt C hC l i h
    have hub : l.length ≤ (i + 1) * C := by
      have htot := chunksOf_total_bound C hC l
      have hi : (chunksOf C l).length = i + 1 := by omega
      rw [hi] at htot
      exact htot
    have hexp : (i + 1) * C = i * C + C := by ring
    have hci : C * i = i * C := Nat.mul_comm C i
    by_cases hr : l.length - i * C = C
    · have hmod : l.length % C = 0 := by
        have hL : l.length = C * i + C := by omega
        rw [hL, Nat.mul_add_mod, Nat.mod_self]
      rw [if_pos hmod, hr]
      omega
    · have hrlt : l.length - i * C < C := by omega
      have hmod : l.length % C = l.length - i * C := by
        have hL : l.length = C * i + (l.length - i * C) := by omega
        conv_lhs => rw [hL]
        rw [Nat.mul_add_mod]
        exact Nat.mod_eq_of_lt hrlt
      rw [hmod, if_neg (by omega)]
      omega

/-! ### Lemmas about the chunk-write loop -/

theorem writeChunks_all_ok (eng : Option Unit) (writeOk : Nat → Bool)
    (h : ∀ i, writeOk i = true) :
    ∀ (chunks : List (List Record)) (i : Nat),
      (writeChunks eng writeOk i chunks).1 = chunks.map (fun c => (eng, c)) := by
  intro chunks
  induction chunks with
  | nil => intro i; rfl
  | cons c rest ih =>
    intro i
    simp [writeChunks, h i, ih (i + 1)]

theorem writeChunks_eng (eng : Option Unit) (writeOk : Nat → Bool) :
    ∀ (chunks : List (List Record)) (i : Nat),
      ∀ call ∈ (writeChunks eng writeOk i chunks).1, call.1 = eng := by
  intro chunks
  induction chunks with
  | nil => intro i call hc; simp [writeChunks] at hc
  | cons c rest ih =>
    intro i call hc
    by_cases hw : writeOk i
    · simp only [writeChunks, if_pos hw, List.mem_cons] at hc
      rcases hc with rfl | hc
      · rfl
      · exact ih (i + 1) call hc
    · simp only [writeChunks, if_neg hw, List.mem_cons] at hc
      rcases hc with rfl | hc
      · rfl
      · simp at hc

theorem writeChunks_ne_nil (eng : Option Unit) (writeOk : Nat → Bool)
    (chunks : List (List Record)) (i : Nat) (h : chunks ≠ []) :
    (writeChunks eng writeOk i chunks).1 ≠ [] := by
  match chunks, h with
  | c :: rest, _ =>
    by_cases hw : writeOk i <;> simp [writeChunks, hw]

/-! ### Lemmas about normalization -/

theorem normalizeListing_id_none (location : Nat) (tnow : Timestamp) (pageNum : Nat)
    (ads : RawListing) (h : ads.id = none) :
    normalizeListing location tnow pageNum ads = .error (.keyError "id") := by
  simp [normalizeListing, h]

theorem normalizeListing_title_none (location : Nat) (tnow : Timestamp) (pageNum : Nat)
    (ads : RawListing) (v : JVal) (hid : ads.id = some v) (h : ads.title = none) :
    normalizeListing location tnow pageNum ads = .error (.keyError "title") := by
  simp [normalizeListing, hid, h]

theorem normalizePage_append_error (location : Nat) (tnow : Timestamp) (pageNum : Nat)
    (bad : RawListing) (post : List RawListing) (e : PyError)
    (hbad : normalizeListing location tnow pageNum bad = .error e) :
    ∀ pre : List RawListing,
      (∀ a ∈ pre, ∃ r, normalizeListing location tnow pageNum a = .ok r) →
      normalizePage location tnow pageNum (pre ++ bad :: post) = .error e := by
  intro pre
  induction pre with
  | nil =>
    intro _
    simp [normalizePage, hbad]
  | cons a rest ih =>
    intro hok
    obtain ⟨r, hr⟩ := hok a (by simp)
    have hrec := ih (fun b hb => hok b (by simp [hb]))
    simp [normalizePage, hr, hrec]

/-! ### Lemmas about the pagination loop -/

/-- Page `j` of the oracle is a successfully fetched, non-empty page whose
every listing normalizes, with listing array `arr j` and normalized records
`recs j`. -/
def GoodPage (pages : Nat → Response) (location : Nat) (tnow : Timestamp)
    (arr : Nat → List RawListing) (recs : Nat → List Record) (j : Nat) : Prop :=
  pages j = Response.ok (arr j) ∧ arr j ≠ [] ∧
    normalizePage location tnow j (arr j) = Except.ok (recs j)

theorem searchLoop_step_good (pages : Nat → Response) (location : Nat)
    (tnow : Timestamp) (p fuel : Nat) (reqs : List Request) (acc : List Record)
    (a : List RawListing) (r : List Record) (h1 : pages p = .ok a) (h2 : a ≠ [])
    (h3 : normalizePage location tnow p a = .ok r) :
    searchLoop pages location tnow p (fuel + 1) reqs acc =
      searchLoop pages location tnow (p + 1) fuel
        (reqs ++ [mkRequest location p]) (acc ++ r) := by
  obtain ⟨x, rest, rfl⟩ := List.exists_cons_of_ne_nil h2
  simp [searchLoop, h1, h3]

theorem searchLoop_step_fail (pages : Nat → Response) (location : Nat)
    (tnow : Timestamp) (p fuel : Nat) (reqs : List Request) (acc : List Record)
    (h1 : pages p = .fail) :
    searchLoop pages location tnow p (fuel + 1) reqs acc =
      ⟨reqs ++ [mkRequest location p], .ok acc⟩ := by
  simp [searchLoop, h1]

theorem searchLoop_step_empty (pages : Nat → Response) (location : Nat)
    (tnow : Timestamp) (p fuel : Nat) (reqs : List Request) (acc : List Record)
    (h1 : pages p = .ok []) :
    searchLoop pages location tnow p (fuel + 1) reqs acc =
      ⟨reqs ++ [mkRequest location p], .ok acc⟩ := by
  simp [searchLoop, h1]

theorem searchLoop_step_error (pages : Nat → Response) (location : Nat)
    (tnow : Timestamp) (p fuel : Nat) (reqs : List Request) (acc : List Record)
    (a : List RawListing) (e : PyError) (h1 : pages p = .ok a) (h2 : a ≠ [])
    (h3 : normalizePage location tnow p a = .error e) :
    searchLoop pages location tnow p (fuel + 1) reqs acc =
      ⟨reqs ++ [mkRequest location p], .error e⟩ := by
  obtain ⟨x, rest, rfl⟩ := List.exists_cons_of_ne_nil h2
  simp [searchLoop, h1, h3]

theorem searchLoop_run (pages : Nat → Response) (location : Nat)
    (tnow : Timestamp) (arr : Nat → List RawListing) (recs : Nat → List Record) :
    ∀ (k fuel : Nat), k ≤ fuel →
      (∀ j, j < k → GoodPage pages location tnow arr recs j) →
      searchLoop pages location tnow 0 fuel [] [] =
        searchLoop pages location tnow k (fuel - k)
          ((List.range k).map (mkRequest location))
          (((List.range k).map recs).flatten) := by
  intro k
  induction k with
  | zero => intro fuel _ _; simp
  | succ k ih =>
    intro fuel hk hgood
    have hstep := ih fuel (by omega) (fun j hj => hgood j (by omega))
    obtain ⟨h1, h2, h3⟩ := hgood k (by omega)
    have hfuel : fuel - k = (fuel - (k + 1)) + 1 := by omega
    rw [hstep, hfuel,
      searchLoop_step_good pages location tnow k (fuel - (k + 1)) _ _ (arr k)
        (recs k) h1 h2 h3]
    rw [List.range_succ, List.map_append, List.map_append]
    simp

/-! ### Lemmas about the orchestrator -/

theorem insertCore_outcome (fetched : Except PyError (List Record))
    (connOk writeOk : Nat → Bool) (retryLimit chunkSize : Nat) :
    (insertCore fetched connOk writeOk retryLimit chunkSize).outcome =
      fetched.map (fun _ => ()) := by
  rcases fetched with e | l
  · rfl
  · rcases l with _ | ⟨r, rs⟩
    · rfl
    · simp only [insertCore, Except.map]
      rcases hcr : (create_engine_with_retry connOk retryLimit).outcome with e2 | eng
      · simp [hcr]
      · simp only [hcr]
        by_cases hcs : chunkSize = 0 <;> simp [hcs]

/-! ### Concrete artifacts used by witnesses and counterexamples -/

/-- A fully populated raw listing (the five directly-subscripted fields
present, every `.get` field absent). -/
def sampleAds : RawListing :=
  { id := some (.numv 101), title := some (.strv "bike"),
    price := some (.obj [("value", .numv 5)]),
    description := some (.strv "good"), created_at := some (.strv "2024") }

/-- The record `sampleAds` normalizes to at location 4000001, page 0,
timestamp 0. -/
def sampleRec : Record :=
  { id := .numv 101, title := .strv "bike",
    price := "\x7b\"value\": 5\x7d", description := "\"good\"",
    created_at := "\"2024\"", locations_resolved := "\x7b\x7d",
    main_info := "\x7b\x7d", artificial_boost := "null",
    created_at_first := "null", locations := "\x7b\x7d",
    location_search := 4000001, page := 0, inserted_at := 0,
    has_promotion := "false", category_id := "null", user_id := "null",
    favorites := "null", user_type := "null" }

/-- A raw listing whose `id` key is absent. -/
def badAds : RawListing := { sampleAds with id := none }

/-- Page 0 holds one well-formed listing, every later page is empty. -/
def pagesOne : Nat → Response := fun j => if j = 0 then .ok [sampleAds] else .ok []

/-- Page 0 holds one well-formed listing, every later request fails. -/
def pagesFailAt1 : Nat → Response := fun j => if j = 0 then .ok [sampleAds] else .fail

/-- Every page responds successfully with one listing missing `id`. -/
def pagesAllBad : Nat → Response := fun _ => .ok [badAds]

/-- Page 0 holds a well-formed listing followed by one missing `id`;
every later page is empty. -/
def pagesGoodThenBad : Nat → Response :=
  fun j => if j = 0 then .ok [sampleAds, badAds] else .ok []

/-- Page 0 holds one listing missing `id`, page 1 is the first empty page. -/
def pagesBadThenEmpty : Nat → Response :=
  fun j => if j = 0 then .ok [badAds] else .ok []

/-! ### Claim C4 -/

/-- C4: on persistent connection failure, `create_engine_with_retry` makes
exactly `limit` connection attempts (the `RETRY_LIMIT` of the source), with
the fixed `RETRY_DELAY` pause between consecutive attempts (`limit - 1`
pauses), and then raises `StorageUnavailable`; and whenever attempt `s`
succeeds (all earlier attempts having failed), it returns the engine
immediately after `s + 1` attempts and attempts no further retry. -/
theorem claim_C4 (connOk : Nat → Bool) (limit : Nat) (hlim : 1 ≤ limit) :
    ((∀ i, connOk i = false) →
      create_engine_with_retry connOk limit =
        ⟨limit, limit - 1, .error .storageUnavailable⟩) ∧
    (∀ s, s < limit → (∀ j, j < s → connOk j = false) → connOk s = true →
      create_engine_with_retry connOk limit = ⟨s + 1, s, .ok (some ())⟩) := by
  constructor
  · intro hfail
    exact connLoop_persistent connOk hfail limit hlim 0
  · intro s hs hfail hsucc
    exact connLoop_success connOk s limit 0 hs
      (fun j hj => by simpa using hfail j hj) (by simpa using hsucc)

/-- Witness for C4 at `limit = 3`: a persistently failing database yields
three attempts, two delays and the error; a database that answers on the
second attempt yields two attempts, one delay and the engine. -/
theorem claim_C4_witness :
    create_engine_with_retry (fun _ => false) 3 =
      ⟨3, 2, .error .storageUnavailable⟩ ∧
    create_engine_with_retry (fun i => i == 1) 3 = ⟨2, 1, .ok (some ())⟩ := by
  constructor
  · exact (claim_C4 (fun _ => false) 3 (by decide)).1 (fun _ => rfl)
  · refine (claim_C4 (fun i => i == 1) 3 (by decide)).2 1 (by decide) ?_ rfl
    intro j hj
    have hj0 : j = 0 := by omega
    rw [hj0]
    rfl

/-! ### Claim C5 -/

/-- C5: for a non-empty record sequence and positive chunk size, the chunk
loop issues exactly `⌈L/C⌉` append calls (at least one), in input order and
each handed the engine; the i-th call carries the i-th contiguous chunk, of
size `C` except possibly the last, whose size is `L mod C` (or `C` when `C`
divides `L`); the concatenation of all chunks is the input sequence.  (The
append-failure oracle is held all-true: the claim describes the partition
discipline, a chunk failure aborting the loop is §4.3/C3 territory.) -/
theorem claim_C5 (l : List Record) (C : Nat) (eng : Option Unit)
    (writeOk : Nat → Bool) (hL : l ≠ []) (hC : 1 ≤ C)
    (hw : ∀ i, writeOk i = true) :
    (writeChunks eng writeOk 0 (chunksOf C l)).1 =
      (chunksOf C l).map (fun c => (eng, c)) ∧
    (chunksOf C l).length = (l.length + C - 1) / C ∧
    1 ≤ (chunksOf C l).length ∧
    (chunksOf C l).flatten = l ∧
    ∀ i (h : i < (chunksOf C l).length),
      (chunksOf C l)[i].length =
        if i + 1 < (chunksOf C l).length then C
        else if l.length % C = 0 then C else l.length % C := by
  refine ⟨writeChunks_all_ok eng writeOk hw (chunksOf C l) 0, chunksOf_length C hC l,
    ?_, chunksOf_flatten C hC l, fun i h => chunksOf_getElem_length C hC l i h⟩
  rw [chunksOf_length C hC l]
  have hl1 : 0 < l.length := List.length_pos.2 hL
  exact (Nat.one_le_div_iff (by omega)).2 (by omega)

/-- Witness for C5: three records with chunk size two give two calls, the
first of size two, the second of size one, flattening back to the input. -/
theorem claim_C5_witness :
    (writeChunks (some ()) (fun _ => true) 0 (chunksOf 2 [sampleRec, sampleRec, sampleRec])).1 =
      (chunksOf 2 [sampleRec, sampleRec, sampleRec]).map (fun c => (some (), c)) ∧
    (chunksOf 2 [sampleRec, sampleRec, sampleRec]).length =
      ([sampleRec, sampleRec, sampleRec].length + 2 - 1) / 2 ∧
    1 ≤ (chunksOf 2 [sampleRec, sampleRec, sampleRec]).length ∧
    (chunksOf 2 [sampleRec, sampleRec, sampleRec]).flatten =
      [sampleRec, sampleRec, sampleRec] ∧
    ∀ i (h : i < (chunksOf 2 [sampleRec, sampleRec, sampleRec]).length),
      (chunksOf 2 [sampleRec, sampleRec, sampleRec])[i].length =
        if i + 1 < (chunksOf 2 [sampleRec, sampleRec, sampleRec]).length then 2
        else if [sampleRec, sampleRec, sampleRec].length % 2 = 0 then 2
        else [sampleRec, sampleRec, sampleRec].length % 2 :=
  claim_C5 [sampleRec, sampleRec, sampleRec] 2 (some ()) (fun _ => true)
    (by simp) (by decide) (fun _ => rfl)

/-! ### Claim C9 -/

/-- C9: whenever the fetch stage returns an empty record list, the
Orchestrator body makes no connection attempt and no append call, emits
exactly the "no data to insert" log event, and raises nothing. -/
theorem claim_C9 (pages : Nat → Response) (connOk writeOk : Nat → Bool)
    (location : Nat) (tnow : Timestamp) (retryLimit chunkSize maxPages : Nat)
    (h : (search_olx_data pages location tnow maxPages).result = .ok []) :
    insert_to_db pages connOk writeOk location tnow retryLimit chunkSize maxPages =
      ⟨0, [], [.noData], .ok ()⟩ := by
  unfold insert_to_db
  rw [h]
  rfl

/-- Witness for C9, the spec's own end-to-end scenario: query key 4000002
with zero listings on page 0. -/
theorem claim_C9_witness :
    insert_to_db (fun _ => .ok []) (fun _ => true) (fun _ => true)
      4000002 0 10 1000 15 = ⟨0, [], [.noData], .ok ()⟩ :=
  claim_C9 (fun _ => .ok []) (fun _ => true) (fun _ => true) 4000002 0 10 1000 15 rfl

/-! ### Claim C10 -/

/-- C10: with a retry limit of 0 the `for attempt in range(0)` loop body
never runs, so `create_engine_with_retry` makes no connection attempt,
sleeps never, raises nothing and returns Python's implicit `None`; the
caller then proceeds into the chunk loop handing that `None` to every
`to_sql` call; and for any retry limit ≥ 1 the function never returns
`None` — it returns a verified engine or raises. -/
theorem claim_C10 (connOk writeOk : Nat → Bool) (pages : Nat → Response)
    (location : Nat) (tnow : Timestamp) (chunkSize maxPages : Nat)
    (recs : List Record)
    (hfetch : (search_olx_data pages location tnow maxPages).result = .ok recs)
    (hne : recs ≠ []) (hcs : 1 ≤ chunkSize) :
    create_engine_with_retry connOk 0 = ⟨0, 0, .ok none⟩ ∧
    ((insert_to_db pages connOk writeOk location tnow 0 chunkSize maxPages).appendCalls ≠ [] ∧
      ∀ call ∈ (insert_to_db pages connOk writeOk location tnow 0 chunkSize
          maxPages).appendCalls, call.1 = none) ∧
    (∀ limit, 1 ≤ limit →
      (create_engine_with_retry connOk limit).outcome ≠ .ok none) := by
  obtain ⟨r, rs, rfl⟩ := List.exists_cons_of_ne_nil hne
  have hins : insert_to_db pages connOk writeOk location tnow 0 chunkSize maxPages =
      ⟨0, (writeChunks none writeOk 0 (chunksOf chunkSize (r :: rs))).1,
        (writeChunks none writeOk 0 (chunksOf chunkSize (r :: rs))).2, .ok ()⟩ := by
    unfold insert_to_db
    rw [hfetch]
    simp only [insertCore, create_engine_with_retry, connLoop]
    rw [if_neg (by omega : ¬ chunkSize = 0)]
  refine ⟨rfl, ⟨?_, ?_⟩, fun limit hlim => connLoop_outcome_ne_none connOk limit hlim 0⟩
  · rw [hins]
    refine writeChunks_ne_nil none writeOk _ 0 ?_
    have hlen := chunksOf_length chunkSize hcs (r :: rs)
    have h1 : 1 ≤ ((r :: rs).length + chunkSize - 1) / chunkSize :=
      (Nat.one_le_div_iff (by omega)).2 (by simp)
    intro hnil
    rw [hnil, List.length_nil] at hlen
    omega
  · rw [hins]
    exact writeChunks_eng none writeOk _ 0

/-- Witness for C10: one fetched record, retry limit 0 — no connection
attempt, `None` returned, and the single chunk append is handed `none`;
any positive limit never yields `.ok none`. -/
theorem claim_C10_witness :
    create_engine_with_retry (fun _ => false) 0 = ⟨0, 0, .ok none⟩ ∧
    ((insert_to_db pagesOne (fun _ => false) (fun _ => true) 4000001 0 0 1000 15).appendCalls ≠ [] ∧
      ∀ call ∈ (insert_to_db pagesOne (fun _ => false) (fun _ => true)
          4000001 0 0 1000 15).appendCalls, call.1 = none) ∧
    (∀ limit, 1 ≤ limit →
      (create_engine_with_retry (fun _ => false) limit).outcome ≠ .ok none) :=
  claim_C10 (fun _ => false) (fun _ => true) pagesOne 4000001 0 1000 15
    [sampleRec] rfl (by simp) (by decide)

/-! ### Claim C6 -/

/-- C6 (amended): if page `k` is the first empty page, the earlier pages all
succeed non-empty, **and every listing on those pages normalizes
successfully** (the amendment: a listing missing one of the five
directly-subscripted keys makes the whole call raise instead, see the
counterexample), then for any `max_pages > k` the Fetcher stops after
requesting page `k` and returns exactly the records of pages `0..k-1`, in
page order. -/
theorem claim_C6 (pages : Nat → Response) (location : Nat) (tnow : Timestamp)
    (arr : Nat → List RawListing) (recs : Nat → List Record) (k maxPages : Nat)
    (hk : k < maxPages)
    (hgood : ∀ j, j < k → GoodPage pages location tnow arr recs j)
    (hempty : pages k = .ok []) :
    (search_olx_data pages location tnow maxPages).result =
      .ok (((List.range k).map recs).flatten) ∧
    (search_olx_data pages location tnow maxPages).requests =
      (List.range (k + 1)).map (mkRequest location) := by
  have hrun := searchLoop_run pages location tnow arr recs k maxPages (by omega) hgood
  have hfuel : maxPages - k = (maxPages - (k + 1)) + 1 := by omega
  have hres : search_olx_data pages location tnow maxPages =
      ⟨(List.range k).map (mkRequest location) ++ [mkRequest location k],
        .ok (((List.range k).map recs).flatten)⟩ := by
    unfold search_olx_data
    rw [hrun, hfuel, searchLoop_step_empty pages location tnow k _ _ _ hempty]
  rw [hres, List.range_succ, List.map_append]
  exact ⟨rfl, rfl⟩

/-- Witness for C6: one good page, page 1 empty, `max_pages = 5`: the run
yields exactly the page-0 records and requests pages 0 and 1. -/
theorem claim_C6_witness :
    (search_olx_data pagesOne 4000001 0 5).result =
      .ok (((List.range 1).map (fun _ => [sampleRec])).flatten) ∧
    (search_olx_data pagesOne 4000001 0 5).requests =
      (List.range (1 + 1)).map (mkRequest 4000001) := by
  refine claim_C6 pagesOne 4000001 0 (fun _ => [sampleAds]) (fun _ => [sampleRec])
    1 5 (by decide) ?_ rfl
  intro j hj
  have hj0 : j = 0 := by omega
  rw [hj0]
  exact ⟨rfl, by simp, rfl⟩

/-- Counterexample to C6 as stated: pages where page 1 is the first page
with an empty result array, but the single listing of page 0 lacks `id`.
The claim promises the records normalized from page 0; the code instead
raises `KeyError` out of the Fetcher and yields no record list at all. -/
theorem claim_C6_counterexample :
    (search_olx_data pagesBadThenEmpty 4000001 0 2).result =
      .error (.keyError "id") ∧
    ¬ ∃ out, (search_olx_data pagesBadThenEmpty 4000001 0 2).result = .ok out := by
  have h : (search_olx_data pagesBadThenEmpty 4000001 0 2).result =
      .error (.keyError "id") := rfl
  refine ⟨h, ?_⟩
  rintro ⟨out, hout⟩
  rw [h] at hout
  exact Except.noConfusion hout

/-! ### Claim C7 -/

/-- C7: if the request for page `k` is issued and fails (transport error or
non-2xx status) — i.e. `k < max_pages` and pages `0..k-1` were all
successfully processed — the Fetcher logs, stops, and returns exactly the
records accumulated from pages `0..k-1`; the exception is caught inside
`search_olx_data`, so the Orchestrator's call completes normally. -/
theorem claim_C7 (pages : Nat → Response) (location : Nat) (tnow : Timestamp)
    (arr : Nat → List RawListing) (recs : Nat → List Record)
    (connOk writeOk : Nat → Bool) (retryLimit chunkSize : Nat)
    (k maxPages : Nat) (hk : k < maxPages)
    (hgood : ∀ j, j < k → GoodPage pages location tnow arr recs j)
    (hfail : pages k = .fail) :
    (search_olx_data pages location tnow maxPages).result =
      .ok (((List.range k).map recs).flatten) ∧
    (search_olx_data pages location tnow maxPages).requests =
      (List.range (k + 1)).map (mkRequest location) ∧
    (insert_to_db pages connOk writeOk location tnow retryLimit chunkSize
        maxPages).outcome = .ok () := by
  have hrun := searchLoop_run pages location tnow arr recs k maxPages (by omega) hgood
  have hfuel : maxPages - k = (maxPages - (k + 1)) + 1 := by omega
  have hres : search_olx_data pages location tnow maxPages =
      ⟨(List.range k).map (mkRequest location) ++ [mkRequest location k],
        .ok (((List.range k).map recs).flatten)⟩ := by
    unfold search_olx_data
    rw [hrun, hfuel, searchLoop_step_fail pages location tnow k _ _ _ hfail]
  refine ⟨by rw [hres], ?_, ?_⟩
  · rw [hres, List.range_succ, List.map_append]
    rfl
  · unfold insert_to_db
    rw [insertCore_outcome, hres]
    rfl

/-- Witness for C7: page 0 succeeds with one listing, the request for page 1
fails: the records of page 0 are returned, pages 0 and 1 were requested,
and `insert_to_db` completes normally. -/
theorem claim_C7_witness :
    (search_olx_data pagesFailAt1 4000001 0 5).result =
      .ok (((List.range 1).map (fun _ => [sampleRec])).flatten) ∧
    (search_olx_data pagesFailAt1 4000001 0 5).requests =
      (List.range (1 + 1)).map (mkRequest 4000001) ∧
    (insert_to_db pagesFailAt1 (fun _ => true) (fun _ => true) 4000001 0 10 1000
        5).outcome = .ok () := by
  refine claim_C7 pagesFailAt1 4000001 0 (fun _ => [sampleAds]) (fun _ => [sampleRec])
    (fun _ => true) (fun _ => true) 10 1000 1 5 (by decide) ?_ rfl
  intro j hj
  have hj0 : j = 0 := by omega
  rw [hj0]
  exact ⟨rfl, by simp, rfl⟩

/-! ### Claim C8 -/

/-- C8 (amended): with `max_pages = N ≥ 1`, if every page request succeeds
with a non-empty result array **and every listing on those pages normalizes
successfully** (the amendment: without it the run can abort early with a
`KeyError`, see the counterexample), the Fetcher issues exactly `N`
requests, for pages `0..N-1`, the `page` parameter absent on page 0 and
equal to `i` on page `i ≥ 1`, and returns the records of all `N` pages in
page order. -/
theorem claim_C8 (pages : Nat → Response) (location : Nat) (tnow : Timestamp)
    (arr : Nat → List RawListing) (recs : Nat → List Record) (N : Nat)
    (hN : 1 ≤ N)
    (hgood : ∀ j, j < N → GoodPage pages location tnow arr recs j) :
    (search_olx_data pages location tnow N).requests =
      (List.range N).map (mkRequest location) ∧
    (search_olx_data pages location tnow N).requests.length = N ∧
    (search_olx_data pages location tnow N).result =
      .ok (((List.range N).map recs).flatten) ∧
    ∀ i (h : i < (search_olx_data pages location tnow N).requests.length),
      (search_olx_data pages location tnow N).requests[i].page =
        if i = 0 then none else some i := by
  have hrun := searchLoop_run pages location tnow arr recs N N (by omega) hgood
  have hres : search_olx_data pages location tnow N =
      ⟨(List.range N).map (mkRequest location),
        .ok (((List.range N).map recs).flatten)⟩ := by
    unfold search_olx_data
    rw [hrun]
    simp [searchLoop]
  refine ⟨by rw [hres], by rw [hres]; simp, by rw [hres], ?_⟩
  intro i h
  have hi : i < N := by
    rw [hres] at h
    simpa using h
  have hval : (search_olx_data pages location tnow N).requests[i]? =
      some (mkRequest location i) := by
    rw [hres]
    show ((List.range N).map (mkRequest location))[i]? = _
    rw [List.getElem?_map, List.getElem?_range (by simpa using hi)]
    rfl
  rw [List.getElem?_eq_getElem h] at hval
  rw [Option.some_injective _ hval]
  unfold mkRequest
  rcases Nat.eq_zero_or_pos i with hi0 | hipos
  · rw [hi0]
    rfl
  · rw [if_pos hipos, if_neg (by omega)]

/-- Witness for C8 at `N = 2`: two good pages, two requests, `page`
parameter `none` then `some 1`, records of both pages returned. -/
theorem claim_C8_witness :
    (search_olx_data (fun _ => .ok [sampleAds]) 4000001 0 2).requests =
      (List.range 2).map (mkRequest 4000001) ∧
    (search_olx_data (fun _ => .ok [sampleAds]) 4000001 0 2).requests.length = 2 ∧
    (search_olx_data (fun _ => .ok [sampleAds]) 4000001 0 2).result =
      .ok (((List.range 2).map (fun j => [{ sampleRec with page := j }])).flatten) ∧
    ∀ i (h : i < (search_olx_data (fun _ => .ok [sampleAds]) 4000001 0 2).requests.length),
      (search_olx_data (fun _ => .ok [sampleAds]) 4000001 0 2).requests[i].page =
        if i = 0 then none else some i := by
  refine claim_C8 (fun _ => .ok [sampleAds]) 4000001 0 (fun _ => [sampleAds])
    (fun j => [{ sampleRec with page := j }]) 2 (by decide) ?_
  intro j hj
  refine ⟨rfl, by simp, ?_⟩
  match j, hj with
  | 0, _ => rfl
  | 1, _ => rfl

/-- Counterexample to C8 as stated: every page request succeeds with a
non-empty result array (each page holds one listing missing `id`), yet with
`max_pages = 2` the code issues one request, not two — the page-0 `KeyError`
aborts the run before page 1 is requested. -/
theorem claim_C8_counterexample :
    (search_olx_data pagesAllBad 4000001 0 2).requests.length = 1 ∧
    (search_olx_data pagesAllBad 4000001 0 2).requests.length ≠ 2 := by
  have h : (search_olx_data pagesAllBad 4000001 0 2).requests.length = 1 := rfl
  refine ⟨h, ?_⟩
  rw [h]
  omega

/-! ### Claim C2 -/

/-- C2 (amended): normalization never throws and produces exactly one
record only for listings whose `id`, `title`, **`price`, `description` and
`created_at`** are all present — the latter three are also read by direct
subscript, so their absence raises `KeyError` (see the counterexample; the
spec's "fourteen optional fields" are in the code ten `.get` fields with
per-field defaults plus three required ones).  Given those five, the record
is unique and each `.get` field follows the substitution policy: absent
object field → `\x7b\x7d`, absent scalar field → `null` (or `false` for
`has_promotion`), present field → serialized as-is. -/
theorem claim_C2 (location : Nat) (tnow : Timestamp) (pageNum : Nat)
    (ads : RawListing) (iv tv pv dv cv : JVal)
    (hid : ads.id = some iv) (hti : ads.title = some tv)
    (hpr : ads.price = some pv) (hde : ads.description = some dv)
    (hcr : ads.created_at = some cv) :
    ∃ r : Record,
      normalizeListing location tnow pageNum ads = .ok r ∧
      r.id = iv ∧ r.title = tv ∧
      r.price = dumps pv ∧ r.description = dumps dv ∧ r.created_at = dumps cv ∧
      r.location_search = location ∧ r.page = pageNum ∧ r.inserted_at = tnow ∧
      (ads.locations_resolved = none → r.locations_resolved = dumps (.obj [])) ∧
      (∀ v, ads.locations_resolved = some v → r.locations_resolved = dumps v) ∧
      (ads.main_info = none → r.main_info = dumps (.obj [])) ∧
      (∀ v, ads.main_info = some v → r.main_info = dumps v) ∧
      (ads.artificial_boost = none → r.artificial_boost = dumps .null) ∧
      (∀ v, ads.artificial_boost = some v → r.artificial_boost = dumps v) ∧
      (ads.created_at_first = none → r.created_at_first = dumps .null) ∧
      (∀ v, ads.created_at_first = some v → r.created_at_first = dumps v) ∧
      (ads.locations = none → r.locations = dumps (.obj [])) ∧
      (∀ v, ads.locations = some v → r.locations = dumps v) ∧
      (ads.has_promotion = none → r.has_promotion = dumps (.boolv false)) ∧
      (∀ v, ads.has_promotion = some v → r.has_promotion = dumps v) ∧
      (ads.category_id = none → r.category_id = dumps .null) ∧
      (∀ v, ads.category_id = some v → r.category_id = dumps v) ∧
      (ads.user_id = none → r.user_id = dumps .null) ∧
      (∀ v, ads.user_id = some v → r.user_id = dumps v) ∧
      (ads.favorites = none → r.favorites = dumps .null) ∧
      (∀ v, ads.favorites = some v → r.favorites = dumps v) ∧
      (ads.user_type = none → r.user_type = dumps .null) ∧
      (∀ v, ads.user_type = some v → r.user_type = dumps v) := by
  have hr : normalizeListing location tnow pageNum ads =
      .ok
        { id := iv
          title := tv
          price := dumps pv
          description := dumps dv
          created_at := dumps cv
          locations_resolved := dumps (ads.locations_resolved.getD (.obj []))
          main_info := dumps (ads.main_info.getD (.obj []))
          artificial_boost := dumps (ads.artificial_boost.getD .null)
          created_at_first := dumps (ads.created_at_first.getD .null)
          locations := dumps (ads.locations.getD (.obj []))
          location_search := location
          page := pageNum
          inserted_at := tnow
          has_promotion := dumps (ads.has_promotion.getD (.boolv false))
          category_id := dumps (ads.category_id.getD .null)
          user_id := dumps (ads.user_id.getD .null)
          favorites := dumps (ads.favorites.getD .null)
          user_type := dumps (ads.user_type.getD .null) } := by
    simp [normalizeListing, hid, hti, hpr, hde, hcr]
  exact ⟨_, hr, rfl, rfl, rfl, rfl, rfl, rfl, rfl, rfl,
    fun h => by rw [h]; rfl, fun v hv => by rw [hv]; rfl,
    fun h => by rw [h]; rfl, fun v hv => by rw [hv]; rfl,
    fun h => by rw [h]; rfl, fun v hv => by rw [hv]; rfl,
    fun h => by rw [h]; rfl, fun v hv => by rw [hv]; rfl,
    fun h => by rw [h]; rfl, fun v hv => by rw [hv]; rfl,
    fun h => by rw [h]; rfl, fun v hv => by rw [hv]; rfl,
    fun h => by rw [h]; rfl, fun v hv => by rw [hv]; rfl,
    fun h => by rw [h]; rfl, fun v hv => by rw [hv]; rfl,
    fun h => by rw [h]; rfl, fun v hv => by rw [hv]; rfl,
    fun h => by rw [h]; rfl, fun v hv => by rw [hv]; rfl⟩

/-- Witness for C2 at `sampleAds` (five required fields present, every
`.get` field absent). -/
theorem claim_C2_witness :
    ∃ r : Record,
      normalizeListing 4000001 0 0 sampleAds = .ok r ∧
      r.id = .numv 101 ∧ r.title = .strv "bike" ∧
      r.price = dumps (.obj [("value", .numv 5)]) ∧
      r.description = dumps (.strv "good") ∧ r.created_at = dumps (.strv "2024") ∧
      r.location_search = 4000001 ∧ r.page = 0 ∧ r.inserted_at = 0 ∧
      (sampleAds.locations_resolved = none → r.locations_resolved = dumps (.obj [])) ∧
      (∀ v, sampleAds.locations_resolved = some v → r.locations_resolved = dumps v) ∧
      (sampleAds.main_info = none → r.main_info = dumps (.obj [])) ∧
      (∀ v, sampleAds.main_info = some v → r.main_info = dumps v) ∧
      (sampleAds.artificial_boost = none → r.artificial_boost = dumps .null) ∧
      (∀ v, sampleAds.artificial_boost = some v → r.artificial_boost = dumps v) ∧
      (sampleAds.created_at_first = none → r.created_at_first = dumps .null) ∧
      (∀ v, sampleAds.created_at_first = some v → r.created_at_first = dumps v) ∧
      (sampleAds.locations = none → r.locations = dumps (.obj [])) ∧
      (∀ v, sampleAds.locations = some v → r.locations = dumps v) ∧
      (sampleAds.has_promotion = none → r.has_promotion = dumps (.boolv false)) ∧
      (∀ v, sampleAds.has_promotion = some v → r.has_promotion = dumps v) ∧
      (sampleAds.category_id = none → r.category_id = dumps .null) ∧
      (∀ v, sampleAds.category_id = some v → r.category_id = dumps v) ∧
      (sampleAds.user_id = none → r.user_id = dumps .null) ∧
      (∀ v, sampleAds.user_id = some v → r.user_id = dumps v) ∧
      (sampleAds.favorites = none → r.favorites = dumps .null) ∧
      (∀ v, sampleAds.favorites = some v → r.favorites = dumps v) ∧
      (sampleAds.user_type = none → r.user_type = dumps .null) ∧
      (∀ v, sampleAds.user_type = some v → r.user_type = dumps v) :=
  claim_C2 4000001 0 0 sampleAds (.numv 101) (.strv "bike")
    (.obj [("value", .numv 5)]) (.strv "good") (.strv "2024") rfl rfl rfl rfl rfl

/-- Counterexample to C2 as stated: a listing with `id` and `title` present
but `price` absent.  The claim says normalization produces exactly one
record and never throws; the code raises `KeyError` for `price` and
produces none. -/
theorem claim_C2_counterexample :
    normalizeListing 4000001 0 0
        { id := some (.numv 7), title := some (.strv "t") } =
      .error (.keyError "price") ∧
    ¬ ∃ r, normalizeListing 4000001 0 0
        { id := some (.numv 7), title := some (.strv "t") } = .ok r := by
  have h : normalizeListing 4000001 0 0
      { id := some (.numv 7), title := some (.strv "t") } =
      .error (.keyError "price") := rfl
  refine ⟨h, ?_⟩
  rintro ⟨r, hr⟩
  rw [h] at hr
  exact Except.noConfusion hr

/-! ### Claim C1 -/

/-- C1 (amended): a raw listing missing `id` (or `title`) makes
normalization raise `KeyError "id"` (resp. `"title"`), and — the amendment —
the listing is **not** merely dropped: the `except` clause of the page loop
catches only `requests.exceptions.RequestException`, so when such a listing
is reached (page `k` reachable, earlier listings of the page fine) the
exception escapes `search_olx_data`, no record list is produced for the
query key, and it escapes `insert_to_db` too, aborting the key's harvest. -/
theorem claim_C1 (pages : Nat → Response) (location : Nat) (tnow : Timestamp)
    (arr : Nat → List RawListing) (recs : Nat → List Record)
    (connOk writeOk : Nat → Bool) (retryLimit chunkSize : Nat)
    (k maxPages : Nat) (hk : k < maxPages)
    (hgood : ∀ j, j < k → GoodPage pages location tnow arr recs j)
    (pre post : List RawListing) (bad : RawListing)
    (hpage : pages k = .ok (pre ++ bad :: post))
    (hpre : ∀ a ∈ pre, ∃ r, normalizeListing location tnow k a = .ok r)
    (hbad : bad.id = none ∨ (∃ v, bad.id = some v ∧ bad.title = none)) :
    ∃ e : PyError,
      normalizeListing location tnow k bad = .error e ∧
      (search_olx_data pages location tnow maxPages).result = .error e ∧
      (insert_to_db pages connOk writeOk location tnow retryLimit chunkSize
          maxPages).outcome = .error e := by
  have hbadnorm : ∃ e : PyError, normalizeListing location tnow k bad = .error e := by
    rcases hbad with hb | ⟨v, hv, hb⟩
    · exact ⟨_, normalizeListing_id_none location tnow k bad hb⟩
    · exact ⟨_, normalizeListing_title_none location tnow k bad v hv hb⟩
  obtain ⟨e, he⟩ := hbadnorm
  have hnp : normalizePage location tnow k (pre ++ bad :: post) = .error e :=
    normalizePage_append_error location tnow k bad post e he pre hpre
  have hrun := searchLoop_run pages location tnow arr recs k maxPages (by omega) hgood
  have hfuel : maxPages - k = (maxPages - (k + 1)) + 1 := by omega
  have hres : (search_olx_data pages location tnow maxPages).result = .error e := by
    unfold search_olx_data
    rw [hrun, hfuel, searchLoop_step_error pages location tnow k _ _ _
      (pre ++ bad :: post) e hpage (by simp) hnp]
  refine ⟨e, he, hres, ?_⟩
  unfold insert_to_db
  rw [insertCore_outcome, hres]
  rfl

/-- Witness for C1: page 0 holds a well-formed listing followed by one
missing `id`; the `KeyError "id"` escapes both the Fetcher and the
Orchestrator. -/
theorem claim_C1_witness :
    ∃ e : PyError,
      normalizeListing 4000001 0 0 badAds = .error e ∧
      (search_olx_data pagesGoodThenBad 4000001 0 5).result = .error e ∧
      (insert_to_db pagesGoodThenBad (fun _ => true) (fun _ => true) 4000001 0
          10 1000 5).outcome = .error e := by
  refine claim_C1 pagesGoodThenBad 4000001 0 (fun _ => []) (fun _ => [])
    (fun _ => true) (fun _ => true) 10 1000 0 5 (by decide)
    (fun j hj => absurd hj (by omega)) [sampleAds] [] badAds rfl ?_ (Or.inl rfl)
  intro a ha
  have ha0 : a = sampleAds := by simpa using ha
  rw [ha0]
  exact ⟨sampleRec, rfl⟩

/-- Counterexample to C1 as stated: on a page holding a well-formed listing
and then one missing `id`, the claim says only the bad listing is dropped
and the rest of the page is still normalized with no exception escaping the
Fetcher; the code instead lets `KeyError "id"` escape `search_olx_data`,
so not even the well-formed listing's record is returned. -/
theorem claim_C1_counterexample :
    (search_olx_data pagesGoodThenBad 4000001 0 5).result =
      .error (.keyError "id") ∧
    ¬ ∃ out, (search_olx_data pagesGoodThenBad 4000001 0 5).result = .ok out := by
  have h : (search_olx_data pagesGoodThenBad 4000001 0 5).result =
      .error (.keyError "id") := rfl
  refine ⟨h, ?_⟩
  rintro ⟨out, hout⟩
  rw [h] at hout
  exact Except.noConfusion hout

/-! ### Claim C3 -/

/-- C3 (amended): every failure of the storage path — connection
acquisition, chunk writes — and every transport failure is caught and
logged before `insert_to_db` returns, but fetch-stage normalization sits
outside its `try`: `insert_to_db`'s outcome is exactly the fetch outcome,
so it raises if and only if `search_olx_data` raised a `KeyError` (see the
counterexample for such an escape past the Orchestrator). -/
theorem claim_C3 (pages : Nat → Response) (connOk writeOk : Nat → Bool)
    (location : Nat) (tnow : Timestamp) (retryLimit chunkSize maxPages : Nat) :
    (insert_to_db pages connOk writeOk location tnow retryLimit chunkSize
        maxPages).outcome =
      (search_olx_data pages location tnow maxPages).result.map (fun _ => ()) := by
  unfold insert_to_db
  exact insertCore_outcome _ connOk writeOk retryLimit chunkSize

/-- Counterexample to C3 as stated: with a page-0 listing missing `id`, the
`KeyError` propagates past `insert_to_db` — a failure arising while
harvesting the key that is not converted to a log event. -/
theorem claim_C3_counterexample :
    (insert_to_db pagesAllBad (fun _ => true) (fun _ => true) 4000001 0 10 1000
        15).outcome = .error (.keyError "id") ∧
    ¬ ∃ u, (insert_to_db pagesAllBad (fun _ => true) (fun _ => true) 4000001 0
        10 1000 15).outcome = .ok u := by
  have h : (insert_to_db pagesAllBad (fun _ => true) (fun _ => true) 4000001 0
      10 1000 15).outcome = .error (.keyError "id") := rfl
  refine ⟨h, ?_⟩
  rintro ⟨u, hu⟩
  rw [h] at hu
  exact Except.noConfusion hu

end Olx
